import Mathlib

/-!
Verification of the Compliance Scoring Engine of the document-governance
service (`src/services/compliance.ts`, reproduced in `src/src/app.ts`).

The engine is a pure evaluator over a document's filename, byte size and
optional metadata, plus two standalone checks (link expiry, version count)
and a periodic bulk re-evaluation over a document/issue store.

Modelling conventions:
* JavaScript numbers that hold byte sizes, scores and epoch-millisecond
  timestamps are modelled as `Int` (every value the engine manipulates is
  an integer in the regions the claims are about).
* `Math.floor(x / 86400000)` on the difference of two epoch-millisecond
  timestamps is modelled as `Int.fdiv` (floor division).  The JS double
  division may round before the floor at astronomically large magnitudes;
  in the representable range the two agree.
* `Number.prototype.toFixed(2)` applied to `size / (1024*1024)` is modelled
  exactly: the divisor is a power of two, so for `0 ≤ size < 2^53` the
  double quotient is exact and `toFixed` rounds half-up to 2 decimals.
* `details` payloads (`Record<string, unknown>`) are modelled as
  association lists of stringified diagnostics; `Date` values inside
  details are rendered as their epoch-millisecond timestamp instead of the
  ISO string (same instant, different rendering, irrelevant to the claims).
* `String.prototype.toLowerCase` is modelled per character with
  `Char.toLower` (ASCII case folding, which covers the configured
  extension alphabet).
-/

namespace DocGov

/-- Issue severities, exactly the four string literals of the source. -/
inductive Severity
  | low
  | medium
  | high
  | critical
deriving DecidableEq

/-- The closed set of compliance issue types (`ComplianceIssueType`). -/
inductive IssueType
  | file_too_large
  | disallowed_file_type
  | missing_metadata
  | expired_document
  | retention_policy_violation
  | link_expired
  | version_limit_exceeded
deriving DecidableEq

/-- One element of `ComplianceCheckResult['issues']`. -/
structure Issue where
  type : IssueType
  severity : Severity
  message : String
  details : List (String × String) := []
deriving DecidableEq

/-- `DocumentMetadata` restricted to the fields the engine reads
(`category`, `confidentiality`, `retentionDate`); the remaining fields
(`description`, `tags`, `customProperties`) are never consulted.
`retentionDate` is the epoch-millisecond timestamp of the `Date`. -/
structure DocumentMetadata where
  category : Option String := none
  confidentiality : Option String := none
  retentionDate : Option Int := none
deriving DecidableEq

/-- `config.compliance`: `maxFileSizeMB` and `allowedFileTypes`. -/
structure ComplianceConfig where
  maxFileSizeMB : Nat
  allowedFileTypes : List String
deriving DecidableEq

/-- The configuration defaults of `src/config.ts`
(`MAX_FILE_SIZE_MB || '50'`, `ALLOWED_FILE_TYPES ||
'pdf,doc,docx,xls,xlsx,ppt,pptx,txt,csv'`). -/
def defaultConfig : ComplianceConfig :=
  { maxFileSizeMB := 50
  , allowedFileTypes := ["pdf", "doc", "docx", "xls", "xlsx", "ppt", "pptx", "txt", "csv"] }

/-- JS truthiness of an optional string field: `undefined` and `''` are
falsy, every non-empty string is truthy. -/
def strTruthy : Option String → Bool
  | none => false
  | some s => !s.isEmpty

/-- `ComplianceCheckResult` of the source. -/
structure ComplianceCheckResult where
  passed : Bool
  issues : List Issue
  score : Int
deriving DecidableEq

/-- `issues.filter(i => i.severity === 'critical').length === 0`. -/
def passedOf (issues : List Issue) : Bool :=
  decide ((issues.filter fun i => decide (i.severity = Severity.critical)).length = 0)

/-- `(size / (1024 * 1024)).toFixed(2)`: the double `size / 2^20` is exact
for `0 ≤ size < 2^53`, and `toFixed(2)` picks the integer `n` with
`n / 100` closest to it, half away from zero for the positive sizes this
is applied to; rendered with exactly two decimals. -/
def toFixed2 (size : Int) : String :=
  let hundredths : Int := Int.fdiv (size * 100 * 2 + 1048576) (2 * 1048576)
  let frac : Nat := (hundredths % 100).toNat
  toString (hundredths / 100) ++ "." ++
    (if frac < 10 then "0" ++ toString frac else toString frac)

/-! ### Node `path.extname` (posix)

`checkFileType` computes `path.extname(filename).toLowerCase().replace('.', '')`.
`path.extname` is transcribed below from Node's posix implementation: a
backward scan tracking the last `.` (`startDot`), the basename start
(`startPart`), the end of the scanned region with trailing slashes skipped
(`endIdx`/`matchedSlash`) and whether the character region before the last
dot makes the dot a real extension separator (`preDotState`). -/

structure ExtScanState where
  startDot : Int
  startPart : Nat
  endIdx : Int
  matchedSlash : Bool
  preDotState : Int
deriving DecidableEq

/-- The body of Node's `extname` scan, iterating indices `i-1, i-2, …, 0`
of `s` (the `break` on a path separator returns early). -/
def extScanGo (s : List Char) : Nat → ExtScanState → ExtScanState
  | 0, st => st
  | i + 1, st =>
    let c := s.getD i ' '
    if c = '/' then
      if st.matchedSlash then extScanGo s i st
      else { st with startPart := i + 1 }
    else
      let st1 := if st.endIdx = -1 then { st with matchedSlash := false, endIdx := (i : Int) + 1 } else st
      let st2 :=
        if c = '.' then
          if st1.startDot = -1 then { st1 with startDot := (i : Int) }
          else if st1.preDotState ≠ 1 then { st1 with preDotState := 1 }
          else st1
        else
          if st1.startDot ≠ -1 then { st1 with preDotState := -1 } else st1
      extScanGo s i st2

/-- Node `path.extname` (posix): the slice from the last `.` of the
basename to the end, or `""` when that dot is missing, is the first
character of the basename, or the basename is `".."`. -/
def extname (p : String) : String :=
  let s := p.data
  let st := extScanGo s s.length ⟨-1, 0, -1, true, 0⟩
  if st.startDot = -1 ∨ st.endIdx = -1 ∨ st.preDotState = 0 ∨
      (st.preDotState = 1 ∧ st.startDot = st.endIdx - 1 ∧ st.startDot = (st.startPart : Int) + 1) then
    ""
  else
    String.mk ((s.drop st.startDot.toNat).take (st.endIdx - st.startDot).toNat)

/-- `String.prototype.toLowerCase`, ASCII case folding per character. -/
def jsToLower (s : String) : String := String.mk (s.data.map Char.toLower)

/-- `String.prototype.replace(target, '')` with a one-character pattern:
removes the first occurrence only. -/
def jsRemoveFirst (target : Char) : List Char → List Char
  | [] => []
  | c :: cs => if c = target then cs else c :: jsRemoveFirst target cs

/-- `path.extname(filename).toLowerCase().replace('.', '')` — the
extension string `checkFileType` matches against the allowed list. -/
def fileExt (filename : String) : String :=
  String.mk (jsRemoveFirst '.' (jsToLower (extname filename)).data)

/-! ### The individual checks -/

/-- The `file_too_large` issue built by `checkFileSize`. -/
def fileTooLargeIssue (cfg : ComplianceConfig) (size : Int) : Issue :=
  let maxSizeBytes : Int := (cfg.maxFileSizeMB : Int) * 1024 * 1024
  { type := IssueType.file_too_large
  , severity := if size > maxSizeBytes * 2 then Severity.critical else Severity.high
  , message := "File size (" ++ toFixed2 size ++ "MB) exceeds maximum allowed (" ++
      toString cfg.maxFileSizeMB ++ "MB)"
  , details := [("actualSize", toString size), ("maxSize", toString maxSizeBytes)] }

/-- `checkFileSize`. -/
def checkFileSize (cfg : ComplianceConfig) (size : Int) : Option Issue :=
  let maxSizeBytes : Int := (cfg.maxFileSizeMB : Int) * 1024 * 1024
  if size > maxSizeBytes then some (fileTooLargeIssue cfg size) else none

/-- The severity-`high` `disallowed_file_type` issue for an empty computed
extension. -/
def noExtensionIssue (filename : String) : Issue :=
  { type := IssueType.disallowed_file_type
  , severity := Severity.high
  , message := "File has no extension"
  , details := [("filename", filename)] }

/-- The severity-`critical` `disallowed_file_type` issue for an extension
outside the allowed list. -/
def disallowedTypeIssue (cfg : ComplianceConfig) (ext : String) : Issue :=
  { type := IssueType.disallowed_file_type
  , severity := Severity.critical
  , message := "File type \"." ++ ext ++ "\" is not allowed. Allowed types: " ++
      String.intercalate ", " cfg.allowedFileTypes
  , details := [("fileType", ext), ("allowedTypes", String.intercalate "," cfg.allowedFileTypes)] }

/-- `checkFileType`. -/
def checkFileType (cfg : ComplianceConfig) (filename : String) : Option Issue :=
  let ext := fileExt filename
  if ext.isEmpty then some (noExtensionIssue filename)
  else if !(cfg.allowedFileTypes.contains ext) then some (disallowedTypeIssue cfg ext)
  else none

/-- The `missing_metadata` issue for entirely absent metadata. -/
def noMetadataIssue : Issue :=
  { type := IssueType.missing_metadata
  , severity := Severity.medium
  , message := "Document has no metadata" }

/-- The `missing_metadata` issue for a missing `category`. -/
def missingCategoryIssue : Issue :=
  { type := IssueType.missing_metadata
  , severity := Severity.low
  , message := "Document is missing category"
  , details := [("missingField", "category")] }

/-- The `missing_metadata` issue for a missing `confidentiality`. -/
def missingConfidentialityIssue : Issue :=
  { type := IssueType.missing_metadata
  , severity := Severity.medium
  , message := "Document is missing confidentiality classification"
  , details := [("missingField", "confidentiality")] }

/-- `checkMetadata`. -/
def checkMetadata : Option DocumentMetadata → List Issue
  | none => [noMetadataIssue]
  | some m =>
    (if !strTruthy m.category then [missingCategoryIssue] else []) ++
      (if !strTruthy m.confidentiality then [missingConfidentialityIssue] else [])

/-- `Math.floor((target.getTime() - now.getTime()) / (1000 * 60 * 60 * 24))`. -/
def daysUntil (now target : Int) : Int :=
  Int.fdiv (target - now) (1000 * 60 * 60 * 24)

/-- The `expired_document` issue built by `checkRetention`. -/
def expiredDocumentIssue (now rd : Int) : Issue :=
  let daysUntilExpiry := daysUntil now rd
  { type := IssueType.expired_document
  , severity := Severity.critical
  , message := "Document has expired (expired " ++ toString daysUntilExpiry.natAbs ++ " days ago)"
  , details := [("retentionDate", toString rd), ("daysExpired", toString daysUntilExpiry.natAbs)] }

/-- The `retention_policy_violation` issue built by `checkRetention`. -/
def retentionWarningIssue (now rd : Int) : Issue :=
  let daysUntilExpiry := daysUntil now rd
  { type := IssueType.retention_policy_violation
  , severity := Severity.high
  , message := "Document will expire in " ++ toString daysUntilExpiry ++ " days"
  , details := [("retentionDate", toString rd), ("daysUntilExpiry", toString daysUntilExpiry)] }

/-- `checkRetention`, with `now` made an explicit input (the source reads
the system clock). -/
def checkRetention (now rd : Int) : Option Issue :=
  let daysUntilExpiry := daysUntil now rd
  if daysUntilExpiry < 0 then some (expiredDocumentIssue now rd)
  else if daysUntilExpiry ≤ 30 then some (retentionWarningIssue now rd)
  else none

/-- The severity-`high` `link_expired` issue. -/
def linkExpiredIssue (now e : Int) : Issue :=
  { type := IssueType.link_expired
  , severity := Severity.high
  , message := "Secure link has expired"
  , details := [("expiryDate", toString e), ("daysExpired", toString (daysUntil now e).natAbs)] }

/-- The severity-`medium` `link_expired` issue. -/
def linkWarningIssue (now e : Int) : Issue :=
  { type := IssueType.link_expired
  , severity := Severity.medium
  , message := "Secure link will expire in " ++ toString (daysUntil now e) ++ " days"
  , details := [("expiryDate", toString e), ("daysUntilExpiry", toString (daysUntil now e))] }

/-- `checkLinkExpiry`, with `now` made an explicit input. -/
def checkLinkExpiry (now : Int) (expiryDate : Option Int) : Option Issue :=
  match expiryDate with
  | none => none
  | some e =>
    let daysUntilExpiry := daysUntil now e
    if daysUntilExpiry < 0 then some (linkExpiredIssue now e)
    else if daysUntilExpiry ≤ 7 then some (linkWarningIssue now e)
    else none

/-- The `version_limit_exceeded` issue. -/
def versionLimitIssue (count maxVersions : Nat) : Issue :=
  { type := IssueType.version_limit_exceeded
  , severity := Severity.medium
  , message := "Document has " ++ toString count ++
      " versions, exceeding the recommended limit of " ++ toString maxVersions
  , details := [("versionCount", toString count), ("maxVersions", toString maxVersions)] }

/-- `checkVersionCount(documentId, maxVersions = 50)`: the source first
fetches `count = versionRepository.getVersionCount(documentId)` (the
external version store, a `COUNT(*)` per document id) and then evaluates
the rule below on `count`; the rule itself is this pure function of the
fetched count and the maximum. -/
def checkVersionCount (count : Nat) (maxVersions : Nat := 50) : Option Issue :=
  if count > maxVersions then some (versionLimitIssue count maxVersions) else none

/-! ### `checkDocument` -/

/-- The size-check deduction of `checkDocument`:
`severity === 'critical' ? 40 : severity === 'high' ? 25 : 10`. -/
def sizeDeduction (i : Issue) : Int :=
  if i.severity = Severity.critical then 40 else if i.severity = Severity.high then 25 else 10

/-- The type-check deduction of `checkDocument`:
`severity === 'critical' ? 50 : severity === 'high' ? 30 : 15`. -/
def typeDeduction (i : Issue) : Int :=
  if i.severity = Severity.critical then 50 else if i.severity = Severity.high then 30 else 15

/-- The metadata deduction of `checkDocument`:
`severity === 'high' ? 10 : 5`. -/
def metadataDeduction (i : Issue) : Int :=
  if i.severity = Severity.high then 10 else 5

/-- The retention deduction of `checkDocument`:
`severity === 'critical' ? 30 : 20`. -/
def retentionDeduction (i : Issue) : Int :=
  if i.severity = Severity.critical then 30 else 20

/-- The retention check as `checkDocument` guards it:
`if (metadata?.retentionDate) { checkRetention(new Date(...)) }` — it runs
only when metadata is present and carries a retention date (a `Date`
object is always truthy). -/
def retentionIssueOf (now : Int) (metadata : Option DocumentMetadata) : Option Issue :=
  match metadata with
  | some m =>
    match m.retentionDate with
    | some rd => checkRetention now rd
    | none => none
  | none => none

/-- `checkDocument`: the sequential issue pushes are the concatenation of
the four checks' outputs in source order, and the sequential
`score -= …` updates subtract, from 100, each produced issue's deduction
under that check's table; the result applies `Math.max(0, score)` and the
critical-severity filter. -/
def checkDocument (cfg : ComplianceConfig) (now : Int) (filename : String)
    (size : Int) (metadata : Option DocumentMetadata) : ComplianceCheckResult :=
  let sizeIssue := checkFileSize cfg size
  let typeIssue := checkFileType cfg filename
  let metadataIssues := checkMetadata metadata
  let retentionIssue := retentionIssueOf now metadata
  let issues := sizeIssue.toList ++ typeIssue.toList ++ metadataIssues ++ retentionIssue.toList
  let score : Int := 100 - (sizeIssue.toList.map sizeDeduction).sum
      - (typeIssue.toList.map typeDeduction).sum
      - (metadataIssues.map metadataDeduction).sum
      - (retentionIssue.toList.map retentionDeduction).sum
  { passed := passedOf issues
  , issues := issues
  , score := max 0 score }

/-- The deductions applied by one `checkDocument` run, one entry per
produced issue, in evaluation order. -/
def deductionsOf (cfg : ComplianceConfig) (now : Int) (filename : String)
    (size : Int) (metadata : Option DocumentMetadata) : List Int :=
  ((checkFileSize cfg size).toList.map sizeDeduction) ++
    ((checkFileType cfg filename).toList.map typeDeduction) ++
    ((checkMetadata metadata).map metadataDeduction) ++
    ((retentionIssueOf now metadata).toList.map retentionDeduction)

end DocGov

namespace DocGov

/-! ### Helper lemmas -/

theorem passedOf_iff (l : List Issue) :
    passedOf l = true ↔ ∀ i ∈ l, i.severity ≠ Severity.critical := by
  simp [passedOf, List.length_eq_zero, List.filter_eq_nil_iff]

theorem checkDocument_issues (cfg : ComplianceConfig) (now : Int) (filename : String)
    (size : Int) (metadata : Option DocumentMetadata) :
    (checkDocument cfg now filename size metadata).issues =
      (checkFileSize cfg size).toList ++ (checkFileType cfg filename).toList ++
        checkMetadata metadata ++ (retentionIssueOf now metadata).toList := rfl

theorem checkDocument_passed (cfg : ComplianceConfig) (now : Int) (filename : String)
    (size : Int) (metadata : Option DocumentMetadata) :
    (checkDocument cfg now filename size metadata).passed =
      passedOf (checkDocument cfg now filename size metadata).issues := rfl

theorem checkFileSize_type (cfg : ComplianceConfig) (size : Int) (i : Issue)
    (h : checkFileSize cfg size = some i) : i.type = IssueType.file_too_large := by
  simp only [checkFileSize] at h
  split at h
  · cases h; rfl
  · cases h

theorem checkFileType_type (cfg : ComplianceConfig) (filename : String) (i : Issue)
    (h : checkFileType cfg filename = some i) : i.type = IssueType.disallowed_file_type := by
  simp only [checkFileType] at h
  split at h
  · cases h; rfl
  · split at h
    · cases h; rfl
    · cases h

theorem checkMetadata_type (metadata : Option DocumentMetadata) (i : Issue)
    (h : i ∈ checkMetadata metadata) : i.type = IssueType.missing_metadata := by
  cases metadata with
  | none => simp [checkMetadata] at h; subst h; rfl
  | some m =>
    simp only [checkMetadata, List.mem_append] at h
    rcases h with h | h <;> (split at h <;> simp at h) <;> (subst h; rfl)

theorem checkRetention_type (now rd : Int) (i : Issue)
    (h : checkRetention now rd = some i) :
    i.type = IssueType.expired_document ∨ i.type = IssueType.retention_policy_violation := by
  simp only [checkRetention] at h
  split at h
  · cases h; left; rfl
  · split at h
    · cases h; right; rfl
    · cases h

theorem retentionIssueOf_type (now : Int) (metadata : Option DocumentMetadata) (i : Issue)
    (h : retentionIssueOf now metadata = some i) :
    i.type = IssueType.expired_document ∨ i.type = IssueType.retention_policy_violation := by
  unfold retentionIssueOf at h
  split at h
  · split at h
    · exact checkRetention_type _ _ _ h
    · cases h
  · cases h

theorem checkLinkExpiry_sev (now : Int) (expiry : Option Int) (i : Issue)
    (h : checkLinkExpiry now expiry = some i) :
    i.severity = Severity.high ∨ i.severity = Severity.medium := by
  cases expiry with
  | none => cases h
  | some e =>
    simp only [checkLinkExpiry] at h
    split at h
    · cases h; left; rfl
    · split at h
      · cases h; right; rfl
      · cases h

theorem checkVersionCount_sev (count maxVersions : Nat) (i : Issue)
    (h : checkVersionCount count maxVersions = some i) : i.severity = Severity.medium := by
  unfold checkVersionCount at h
  split at h
  · cases h; rfl
  · cases h

end DocGov

namespace DocGov

theorem passedOf_append (l e : List Issue) (hl : passedOf l = true)
    (he : ∀ i ∈ e, i.severity ≠ Severity.critical) : passedOf (l ++ e) = true := by
  rw [passedOf_iff] at hl ⊢
  intro i hi
  rcases List.mem_append.mp hi with h | h
  · exact hl i h
  · exact he i h

/-- C1: `checkVersionCount` is a pure function of the externally supplied
version count and the configurable maximum (default 50): when
`count > max` it returns exactly the `version_limit_exceeded` issue of
severity `medium` whose message states the count and the limit, and when
`count ≤ max` (including `count = max`) it returns no issue. -/
theorem checkVersionCount_spec (count maxVersions : Nat) :
    (count > maxVersions →
      checkVersionCount count maxVersions = some (versionLimitIssue count maxVersions) ∧
      (versionLimitIssue count maxVersions).type = IssueType.version_limit_exceeded ∧
      (versionLimitIssue count maxVersions).severity = Severity.medium ∧
      (versionLimitIssue count maxVersions).message =
        "Document has " ++ toString count ++
          " versions, exceeding the recommended limit of " ++ toString maxVersions) ∧
    (count ≤ maxVersions → checkVersionCount count maxVersions = none) := by
  constructor
  · intro h
    exact ⟨by simp [checkVersionCount, h], rfl, rfl, rfl⟩
  · intro h
    simp [checkVersionCount, Nat.not_lt.mpr h]

/-- C1 witness: the spec's concrete scenario `checkVersionCount(51, 50)`
and `checkVersionCount(50, 50)`. -/
theorem checkVersionCount_spec_witness :
    51 > 50 ∧ checkVersionCount 51 50 = some (versionLimitIssue 51 50) ∧
      checkVersionCount 50 50 = none :=
  ⟨by decide, ((checkVersionCount_spec 51 50).1 (by decide)).1,
    (checkVersionCount_spec 50 50).2 (by decide)⟩

/-- C5: `checkDocument` returns `passed = false` iff at least one produced
issue has severity `critical`; in particular `passed = true` whenever the
issue list is empty. -/
theorem checkDocument_passed_iff (cfg : ComplianceConfig) (now : Int) (filename : String)
    (size : Int) (metadata : Option DocumentMetadata) :
    ((checkDocument cfg now filename size metadata).passed = false ↔
      ∃ i ∈ (checkDocument cfg now filename size metadata).issues,
        i.severity = Severity.critical) ∧
    ((checkDocument cfg now filename size metadata).issues = [] →
      (checkDocument cfg now filename size metadata).passed = true) := by
  constructor
  · rw [checkDocument_passed]
    rw [← Bool.not_eq_true, not_iff_comm, passedOf_iff]
    push_neg
    tauto
  · intro h
    rw [checkDocument_passed, h]
    rfl

/-- C5 witness: a fully compliant document yields an empty issue list and
`passed = true`. -/
theorem checkDocument_passed_iff_witness :
    (checkDocument defaultConfig 0 "report.pdf" 1024
      (some { category := some "contracts", confidentiality := some "internal" })).issues = [] ∧
    (checkDocument defaultConfig 0 "report.pdf" 1024
      (some { category := some "contracts", confidentiality := some "internal" })).passed = true :=
  ⟨by decide,
    (checkDocument_passed_iff defaultConfig 0 "report.pdf" 1024
      (some { category := some "contracts", confidentiality := some "internal" })).2 (by decide)⟩

/-- C10: every issue `checkLinkExpiry` or `checkVersionCount` returns has
severity `high` or `medium`, never `critical`; appending their outputs to
an issue list therefore never turns the no-critical-issue verdict from
true to false. -/
theorem appended_checks_preserve_passed (now : Int) (expiry : Option Int)
    (count maxVersions : Nat) (issues : List Issue) :
    (∀ i, checkLinkExpiry now expiry = some i →
      i.severity = Severity.high ∨ i.severity = Severity.medium) ∧
    (∀ i, checkVersionCount count maxVersions = some i → i.severity = Severity.medium) ∧
    (passedOf issues = true →
      passedOf (issues ++ (checkLinkExpiry now expiry).toList ++
        (checkVersionCount count maxVersions).toList) = true) := by
  refine ⟨checkLinkExpiry_sev now expiry, checkVersionCount_sev count maxVersions, ?_⟩
  intro h
  rw [List.append_assoc]
  refine passedOf_append _ _ h ?_
  intro i hi
  rcases List.mem_append.mp hi with hmem | hmem
  · rcases checkLinkExpiry_sev now expiry i (Option.mem_toList.mp hmem) with hs | hs <;>
      simp [hs]
  · have := checkVersionCount_sev count maxVersions i (Option.mem_toList.mp hmem)
    simp [this]

/-- C10 witness: an expired link issue and a version-limit issue appended
to an empty issue list leave the verdict passing. -/
theorem appended_checks_preserve_passed_witness :
    passedOf [] = true ∧
    passedOf ([] ++ (checkLinkExpiry 0 (some (-172800000))).toList ++
      (checkVersionCount 51 50).toList) = true :=
  ⟨by decide, (appended_checks_preserve_passed 0 (some (-172800000)) 51 50 []).2.2 (by decide)⟩

end DocGov

namespace DocGov

theorem toList_filter_pos (o : Option Issue) (p : Issue → Bool)
    (h : ∀ i, o = some i → p i = true) : o.toList.filter p = o.toList := by
  cases o with
  | none => rfl
  | some i => simp [h i rfl]

theorem toList_filter_neg (o : Option Issue) (p : Issue → Bool)
    (h : ∀ i, o = some i → p i = false) : o.toList.filter p = [] := by
  cases o with
  | none => rfl
  | some i => simp [h i rfl]

theorem issues_filter_size (cfg : ComplianceConfig) (now : Int) (filename : String)
    (size : Int) (metadata : Option DocumentMetadata) :
    (checkDocument cfg now filename size metadata).issues.filter
      (fun i => decide (i.type = IssueType.file_too_large)) = (checkFileSize cfg size).toList := by
  rw [checkDocument_issues, List.filter_append, List.filter_append, List.filter_append,
    toList_filter_pos _ _ (fun i hi => by simp [checkFileSize_type cfg size i hi]),
    toList_filter_neg _ _ (fun i hi => by simp [checkFileType_type cfg filename i hi]),
    toList_filter_neg _ _ (fun i hi => by
      rcases retentionIssueOf_type now metadata i hi with h | h <;> simp [h]),
    List.filter_eq_nil_iff.mpr (fun i hi => by simp [checkMetadata_type metadata i hi])]
  simp

theorem issues_filter_metadata (cfg : ComplianceConfig) (now : Int) (filename : String)
    (size : Int) (metadata : Option DocumentMetadata) :
    (checkDocument cfg now filename size metadata).issues.filter
      (fun i => decide (i.type = IssueType.missing_metadata)) = checkMetadata metadata := by
  rw [checkDocument_issues, List.filter_append, List.filter_append, List.filter_append,
    toList_filter_neg _ _ (fun i hi => by simp [checkFileSize_type cfg size i hi]),
    toList_filter_neg _ _ (fun i hi => by simp [checkFileType_type cfg filename i hi]),
    toList_filter_neg _ _ (fun i hi => by
      rcases retentionIssueOf_type now metadata i hi with h | h <;> simp [h]),
    List.filter_eq_self.mpr (fun i hi => by simp [checkMetadata_type metadata i hi])]
  simp

theorem issues_filter_retention (cfg : ComplianceConfig) (now : Int) (filename : String)
    (size : Int) (metadata : Option DocumentMetadata) :
    (checkDocument cfg now filename size metadata).issues.filter
      (fun i => decide (i.type = IssueType.expired_document ∨
        i.type = IssueType.retention_policy_violation)) =
      (retentionIssueOf now metadata).toList := by
  rw [checkDocument_issues, List.filter_append, List.filter_append, List.filter_append,
    toList_filter_neg _ _ (fun i hi => by simp [checkFileSize_type cfg size i hi]),
    toList_filter_neg _ _ (fun i hi => by simp [checkFileType_type cfg filename i hi]),
    toList_filter_pos _ _ (fun i hi => by
      rcases retentionIssueOf_type now metadata i hi with h | h <;> simp [h]),
    List.filter_eq_nil_iff.mpr (fun i hi => by simp [checkMetadata_type metadata i hi])]
  simp

theorem issues_filter_filetype (cfg : ComplianceConfig) (now : Int) (filename : String)
    (size : Int) (metadata : Option DocumentMetadata) :
    (checkDocument cfg now filename size metadata).issues.filter
      (fun i => decide (i.type = IssueType.disallowed_file_type)) =
      (checkFileType cfg filename).toList := by
  rw [checkDocument_issues, List.filter_append, List.filter_append, List.filter_append,
    toList_filter_neg _ _ (fun i hi => by simp [checkFileSize_type cfg size i hi]),
    toList_filter_pos _ _ (fun i hi => by simp [checkFileType_type cfg filename i hi]),
    toList_filter_neg _ _ (fun i hi => by
      rcases retentionIssueOf_type now metadata i hi with h | h <;> simp [h]),
    List.filter_eq_nil_iff.mpr (fun i hi => by simp [checkMetadata_type metadata i hi])]
  simp

end DocGov

namespace DocGov

/-- C3: `checkDocument`'s size check — no `file_too_large` issue at or
below the configured byte limit; exactly one issue of severity `high`
(deduction 25) between the limit and twice the limit; severity `critical`
(deduction 40) above twice the limit; the message reports the actual size
in MB with two decimals and the configured limit in MB. -/
theorem checkDocument_size_check (cfg : ComplianceConfig) (now : Int) (filename : String)
    (size : Int) (metadata : Option DocumentMetadata) :
    (size ≤ (cfg.maxFileSizeMB : Int) * 1024 * 1024 →
      (checkDocument cfg now filename size metadata).issues.filter
        (fun i => decide (i.type = IssueType.file_too_large)) = []) ∧
    ((cfg.maxFileSizeMB : Int) * 1024 * 1024 < size →
      size ≤ 2 * ((cfg.maxFileSizeMB : Int) * 1024 * 1024) →
      (checkDocument cfg now filename size metadata).issues.filter
        (fun i => decide (i.type = IssueType.file_too_large)) = [fileTooLargeIssue cfg size] ∧
      (fileTooLargeIssue cfg size).severity = Severity.high ∧
      sizeDeduction (fileTooLargeIssue cfg size) = 25 ∧
      (fileTooLargeIssue cfg size).message =
        "File size (" ++ toFixed2 size ++ "MB) exceeds maximum allowed (" ++
          toString cfg.maxFileSizeMB ++ "MB)") ∧
    (2 * ((cfg.maxFileSizeMB : Int) * 1024 * 1024) < size →
      (checkDocument cfg now filename size metadata).issues.filter
        (fun i => decide (i.type = IssueType.file_too_large)) = [fileTooLargeIssue cfg size] ∧
      (fileTooLargeIssue cfg size).severity = Severity.critical ∧
      sizeDeduction (fileTooLargeIssue cfg size) = 40) := by
  refine ⟨fun h => ?_, fun h h2 => ?_, fun h => ?_⟩
  · rw [issues_filter_size]
    simp [checkFileSize, not_lt.mpr h]
  · have hsev : (fileTooLargeIssue cfg size).severity = Severity.high := by
      have : ¬ size > (cfg.maxFileSizeMB : Int) * 1024 * 1024 * 2 := by omega
      simp [fileTooLargeIssue, this]
    refine ⟨?_, hsev, ?_, rfl⟩
    · rw [issues_filter_size]
      simp [checkFileSize, h]
    · simp [sizeDeduction, hsev]
  · have hsev : (fileTooLargeIssue cfg size).severity = Severity.critical := by
      have : size > (cfg.maxFileSizeMB : Int) * 1024 * 1024 * 2 := by omega
      simp [fileTooLargeIssue, this]
    refine ⟨?_, hsev, ?_⟩
    · rw [issues_filter_size]
      have hlt : (cfg.maxFileSizeMB : Int) * 1024 * 1024 < size := by omega
      simp [checkFileSize, hlt]
    · simp [sizeDeduction, hsev]

end DocGov

namespace DocGov

/-- C3 witness: one byte over the default 50MB limit yields the single
severity-`high` `file_too_large` issue with the expected message. -/
theorem checkDocument_size_check_witness :
    ((defaultConfig.maxFileSizeMB : Int) * 1024 * 1024 < 52428801 ∧
      (52428801 : Int) ≤ 2 * ((defaultConfig.maxFileSizeMB : Int) * 1024 * 1024)) ∧
    (checkDocument defaultConfig 0 "big.pdf" 52428801 none).issues.filter
      (fun i => decide (i.type = IssueType.file_too_large)) =
        [fileTooLargeIssue defaultConfig 52428801] ∧
    (fileTooLargeIssue defaultConfig 52428801).message =
      "File size (50.00MB) exceeds maximum allowed (50MB)" :=
  ⟨⟨by decide, by decide⟩,
    ((checkDocument_size_check defaultConfig 0 "big.pdf" 52428801 none).2.1
      (by decide) (by decide)).1,
    by decide⟩

theorem metadataDeduction_eq_five (metadata : Option DocumentMetadata) (i : Issue)
    (h : i ∈ checkMetadata metadata) : metadataDeduction i = 5 := by
  cases metadata with
  | none =>
    simp [checkMetadata] at h
    subst h
    rfl
  | some m =>
    simp only [checkMetadata, List.mem_append] at h
    rcases h with h | h <;> (split at h <;> simp at h) <;> (subst h; rfl)

/-- C6: `checkDocument`'s metadata check — absent metadata yields exactly
the severity-`medium` `missing_metadata` issue with no details; present
metadata yields the severity-`low` category issue exactly when `category`
is empty/absent and the severity-`medium` confidentiality issue exactly
when `confidentiality` is empty/absent, independently; every metadata
issue deducts exactly 5. -/
theorem checkDocument_metadata_check (cfg : ComplianceConfig) (now : Int) (filename : String)
    (size : Int) :
    ((checkDocument cfg now filename size none).issues.filter
      (fun i => decide (i.type = IssueType.missing_metadata)) = [noMetadataIssue]) ∧
    noMetadataIssue.severity = Severity.medium ∧
    noMetadataIssue.details = [] ∧
    (∀ m : DocumentMetadata,
      (checkDocument cfg now filename size (some m)).issues.filter
        (fun i => decide (i.type = IssueType.missing_metadata)) =
        (if strTruthy m.category = false then [missingCategoryIssue] else []) ++
          (if strTruthy m.confidentiality = false then [missingConfidentialityIssue] else [])) ∧
    missingCategoryIssue.severity = Severity.low ∧
    missingCategoryIssue.details = [("missingField", "category")] ∧
    missingConfidentialityIssue.severity = Severity.medium ∧
    missingConfidentialityIssue.details = [("missingField", "confidentiality")] ∧
    (∀ (metadata : Option DocumentMetadata) (i : Issue),
      i ∈ checkMetadata metadata → metadataDeduction i = 5) := by
  refine ⟨?_, rfl, rfl, fun m => ?_, rfl, rfl, rfl, rfl, metadataDeduction_eq_five⟩
  · rw [issues_filter_metadata]
    rfl
  · rw [issues_filter_metadata]
    cases hc : strTruthy m.category <;> cases hf : strTruthy m.confidentiality <;>
      simp [checkMetadata, hc, hf]

/-- C6 witness: metadata with only the category missing yields exactly the
severity-`low` category issue, which deducts 5. -/
theorem checkDocument_metadata_check_witness :
    (checkDocument defaultConfig 0 "doc.pdf" 1024
      (some { confidentiality := some "internal" })).issues.filter
      (fun i => decide (i.type = IssueType.missing_metadata)) = [missingCategoryIssue] ∧
    missingCategoryIssue ∈ checkMetadata (some { confidentiality := some "internal" }) ∧
    metadataDeduction missingCategoryIssue = 5 := by
  refine ⟨?_, by decide, ?_⟩
  · rw [(checkDocument_metadata_check defaultConfig 0 "doc.pdf" 1024).2.2.2.1
      { confidentiality := some "internal" }]
    decide
  · exact (checkDocument_metadata_check defaultConfig 0 "doc.pdf" 1024).2.2.2.2.2.2.2.2
      (some { confidentiality := some "internal" }) missingCategoryIssue (by decide)

end DocGov

namespace DocGov

theorem retentionIssueOf_none (now : Int) (metadata : Option DocumentMetadata)
    (h : metadata.bind DocumentMetadata.retentionDate = none) :
    retentionIssueOf now metadata = none := by
  cases metadata with
  | none => rfl
  | some m =>
    cases hm : m.retentionDate with
    | none => simp [retentionIssueOf, hm]
    | some rd => simp [hm] at h

theorem retentionIssueOf_some (now : Int) (metadata : Option DocumentMetadata) (rd : Int)
    (h : metadata.bind DocumentMetadata.retentionDate = some rd) :
    retentionIssueOf now metadata = checkRetention now rd := by
  cases metadata with
  | none => simp at h
  | some m =>
    cases hm : m.retentionDate with
    | none => simp [hm] at h
    | some rd2 =>
      simp [hm] at h
      subst h
      simp [retentionIssueOf, hm]

/-- C7: `checkDocument`'s retention check runs only when
`metadata.retentionDate` is present; with `days` the floor of the
difference in days, a negative `days` yields exactly the
severity-`critical` `expired_document` issue (deduction 30, message
stating the absolute days expired), `0 ≤ days ≤ 30` yields exactly the
severity-`high` `retention_policy_violation` issue (deduction 20, message
stating the days until expiry), and `days > 30` yields no issue. -/
theorem checkDocument_retention_check (cfg : ComplianceConfig) (now : Int) (filename : String)
    (size : Int) (metadata : Option DocumentMetadata) :
    (metadata.bind DocumentMetadata.retentionDate = none →
      (checkDocument cfg now filename size metadata).issues.filter
        (fun i => decide (i.type = IssueType.expired_document ∨
          i.type = IssueType.retention_policy_violation)) = []) ∧
    (∀ rd : Int, metadata.bind DocumentMetadata.retentionDate = some rd →
      (daysUntil now rd < 0 →
        (checkDocument cfg now filename size metadata).issues.filter
          (fun i => decide (i.type = IssueType.expired_document ∨
            i.type = IssueType.retention_policy_violation)) = [expiredDocumentIssue now rd] ∧
        (expiredDocumentIssue now rd).type = IssueType.expired_document ∧
        (expiredDocumentIssue now rd).severity = Severity.critical ∧
        retentionDeduction (expiredDocumentIssue now rd) = 30 ∧
        (expiredDocumentIssue now rd).message =
          "Document has expired (expired " ++ toString (daysUntil now rd).natAbs ++
            " days ago)") ∧
      (0 ≤ daysUntil now rd → daysUntil now rd ≤ 30 →
        (checkDocument cfg now filename size metadata).issues.filter
          (fun i => decide (i.type = IssueType.expired_document ∨
            i.type = IssueType.retention_policy_violation)) = [retentionWarningIssue now rd] ∧
        (retentionWarningIssue now rd).type = IssueType.retention_policy_violation ∧
        (retentionWarningIssue now rd).severity = Severity.high ∧
        retentionDeduction (retentionWarningIssue now rd) = 20 ∧
        (retentionWarningIssue now rd).message =
          "Document will expire in " ++ toString (daysUntil now rd) ++ " days") ∧
      (30 < daysUntil now rd →
        (checkDocument cfg now filename size metadata).issues.filter
          (fun i => decide (i.type = IssueType.expired_document ∨
            i.type = IssueType.retention_policy_violation)) = [])) := by
  constructor
  · intro h
    rw [issues_filter_retention, retentionIssueOf_none now metadata h]
    rfl
  · intro rd h
    refine ⟨fun hneg => ?_, fun h0 h30 => ?_, fun h30 => ?_⟩
    · refine ⟨?_, rfl, rfl, rfl, rfl⟩
      rw [issues_filter_retention, retentionIssueOf_some now metadata rd h]
      simp [checkRetention, hneg]
    · refine ⟨?_, rfl, rfl, rfl, rfl⟩
      rw [issues_filter_retention, retentionIssueOf_some now metadata rd h]
      simp [checkRetention, not_lt.mpr h0, h30]
    · rw [issues_filter_retention, retentionIssueOf_some now metadata rd h]
      have h1 : ¬ daysUntil now rd < 0 := by omega
      simp [checkRetention, h1, not_le.mpr h30]

end DocGov

namespace DocGov

/-- C7 witness: a retention date five days in the past yields the
severity-`critical` `expired_document` issue. -/
theorem checkDocument_retention_check_witness :
    (some { retentionDate := some (-432000000) } : Option DocumentMetadata).bind
      DocumentMetadata.retentionDate = some (-432000000) ∧
    daysUntil 0 (-432000000) < 0 ∧
    (checkDocument defaultConfig 0 "doc.pdf" 1024
      (some { retentionDate := some (-432000000) })).issues.filter
      (fun i => decide (i.type = IssueType.expired_document ∨
        i.type = IssueType.retention_policy_violation)) = [expiredDocumentIssue 0 (-432000000)] ∧
    (expiredDocumentIssue 0 (-432000000)).message =
      "Document has expired (expired 5 days ago)" :=
  ⟨by decide, by decide,
    (((checkDocument_retention_check defaultConfig 0 "doc.pdf" 1024
      (some { retentionDate := some (-432000000) })).2 (-432000000) (by decide)).1
        (by decide)).1,
    by decide⟩

/-- C8: `checkLinkExpiry` — an absent expiry yields no issue; with `days`
the floor of days until expiry, a negative `days` yields the
severity-`high` `link_expired` issue whose details record the days
expired, `0 ≤ days ≤ 7` yields the severity-`medium` `link_expired`
issue whose message states the days remaining, and `days > 7` yields no
issue; an expiry of exactly `now` yields the severity-`medium` issue
reporting 0 days. -/
theorem checkLinkExpiry_spec (now : Int) :
    checkLinkExpiry now none = none ∧
    (∀ e : Int,
      (daysUntil now e < 0 →
        checkLinkExpiry now (some e) = some (linkExpiredIssue now e) ∧
        (linkExpiredIssue now e).type = IssueType.link_expired ∧
        (linkExpiredIssue now e).severity = Severity.high ∧
        ("daysExpired", toString (daysUntil now e).natAbs) ∈ (linkExpiredIssue now e).details ∧
        (linkExpiredIssue now e).message = "Secure link has expired") ∧
      (0 ≤ daysUntil now e → daysUntil now e ≤ 7 →
        checkLinkExpiry now (some e) = some (linkWarningIssue now e) ∧
        (linkWarningIssue now e).type = IssueType.link_expired ∧
        (linkWarningIssue now e).severity = Severity.medium ∧
        (linkWarningIssue now e).message =
          "Secure link will expire in " ++ toString (daysUntil now e) ++ " days") ∧
      (7 < daysUntil now e → checkLinkExpiry now (some e) = none)) ∧
    (daysUntil now now = 0 ∧
      checkLinkExpiry now (some now) = some (linkWarningIssue now now) ∧
      (linkWarningIssue now now).severity = Severity.medium ∧
      (linkWarningIssue now now).message = "Secure link will expire in 0 days") := by
  have hz : daysUntil now now = 0 := by
    simp [daysUntil]
  refine ⟨rfl, fun e => ⟨fun hneg => ?_, fun h0 h7 => ?_, fun h7 => ?_⟩, hz, ?_, rfl, ?_⟩
  · refine ⟨?_, rfl, rfl, by simp [linkExpiredIssue], rfl⟩
    simp [checkLinkExpiry, hneg]
  · refine ⟨?_, rfl, rfl, rfl⟩
    simp [checkLinkExpiry, not_lt.mpr h0, h7]
  · have h1 : ¬ daysUntil now e < 0 := by omega
    simp [checkLinkExpiry, h1, not_le.mpr h7]
  · have h1 : ¬ daysUntil now now < 0 := by omega
    have h2 : daysUntil now now ≤ 7 := by omega
    simp [checkLinkExpiry, h1, h2]
  · rw [show "Secure link will expire in 0 days" =
      "Secure link will expire in " ++ toString (daysUntil now now) ++ " days" by rw [hz]; rfl]
    rfl

/-- C8 witness: concrete instances at `now = 0` — an expiry two days in
the past is `high`, an expiry of exactly now is `medium` with 0 days. -/
theorem checkLinkExpiry_spec_witness :
    daysUntil 0 (-172800000) < 0 ∧
    checkLinkExpiry 0 (some (-172800000)) = some (linkExpiredIssue 0 (-172800000)) ∧
    checkLinkExpiry 0 (some 0) = some (linkWarningIssue 0 0) ∧
    (linkWarningIssue 0 0).message = "Secure link will expire in 0 days" :=
  ⟨by decide,
    (((checkLinkExpiry_spec 0).2.1 (-172800000)).1 (by decide)).1,
    (checkLinkExpiry_spec 0).2.2.2.1,
    (checkLinkExpiry_spec 0).2.2.2.2.2⟩

end DocGov

namespace DocGov

theorem sizeDeduction_nonneg (i : Issue) : 0 ≤ sizeDeduction i := by
  unfold sizeDeduction
  split
  · decide
  · split <;> decide

theorem typeDeduction_nonneg (i : Issue) : 0 ≤ typeDeduction i := by
  unfold typeDeduction
  split
  · decide
  · split <;> decide

theorem metadataDeduction_nonneg (i : Issue) : 0 ≤ metadataDeduction i := by
  unfold metadataDeduction
  split <;> decide

theorem retentionDeduction_nonneg (i : Issue) : 0 ≤ retentionDeduction i := by
  unfold retentionDeduction
  split <;> decide

theorem deductionsOf_nonneg (cfg : ComplianceConfig) (now : Int) (filename : String)
    (size : Int) (metadata : Option DocumentMetadata) :
    ∀ d ∈ deductionsOf cfg now filename size metadata, 0 ≤ d := by
  intro d hd
  simp only [deductionsOf, List.mem_append, List.mem_map] at hd
  rcases hd with ((⟨i, _, rfl⟩ | ⟨i, _, rfl⟩) | ⟨i, _, rfl⟩) | ⟨i, _, rfl⟩
  · exact sizeDeduction_nonneg i
  · exact typeDeduction_nonneg i
  · exact metadataDeduction_nonneg i
  · exact retentionDeduction_nonneg i

theorem sum_take_mono (l : List Int) (h : ∀ x ∈ l, 0 ≤ x) :
    ∀ n : Nat, (l.take n).sum ≤ (l.take (n + 1)).sum := by
  induction l with
  | nil => intro n; simp
  | cons x xs ih =>
    intro n
    cases n with
    | zero =>
      simpa using h x (List.mem_cons_self x xs)
    | succ m =>
      simp only [List.take_succ_cons, List.sum_cons]
      have := ih (fun y hy => h y (List.mem_cons_of_mem x hy)) m
      omega

/-- C4: the score returned by `checkDocument` is
`max(0, 100 - sum of the produced issues' deductions)` — one deduction per
produced issue — an integer in `[0, 100]`, non-increasing as each further
deduction is applied, and 0 (not negative) for an oversized disallowed
file with missing metadata fields and an expired retention date. -/
theorem checkDocument_score_spec (cfg : ComplianceConfig) (now : Int) (filename : String)
    (size : Int) (metadata : Option DocumentMetadata) :
    ((checkDocument cfg now filename size metadata).score =
      max 0 (100 - (deductionsOf cfg now filename size metadata).sum)) ∧
    (deductionsOf cfg now filename size metadata).length =
      (checkDocument cfg now filename size metadata).issues.length ∧
    0 ≤ (checkDocument cfg now filename size metadata).score ∧
    (checkDocument cfg now filename size metadata).score ≤ 100 ∧
    (∀ n : Nat,
      max (0 : Int) (100 - ((deductionsOf cfg now filename size metadata).take (n + 1)).sum) ≤
        max 0 (100 - ((deductionsOf cfg now filename size metadata).take n).sum)) ∧
    (checkDocument defaultConfig 0 "huge.exe" 524288000
      (some { retentionDate := some (-432000000) })).score = 0 := by
  have hscore : (checkDocument cfg now filename size metadata).score =
      max 0 (100 - (deductionsOf cfg now filename size metadata).sum) := by
    show max 0 _ = max 0 _
    congr 1
    simp only [deductionsOf, List.sum_append]
    ring
  have hsum : 0 ≤ (deductionsOf cfg now filename size metadata).sum :=
    List.sum_nonneg (deductionsOf_nonneg cfg now filename size metadata)
  refine ⟨hscore, ?_, ?_, ?_, fun n => ?_, by decide⟩
  · simp [deductionsOf, checkDocument_issues]
  · rw [hscore]; exact le_max_left _ _
  · rw [hscore]
    omega
  · have := sum_take_mono _ (deductionsOf_nonneg cfg now filename size metadata) n
    omega

end DocGov

namespace DocGov

theorem getD_default_or_mem (s : List Char) (i : Nat) :
    s.getD i ' ' = ' ' ∨ s.getD i ' ' ∈ s := by
  by_cases h : i < s.length
  · right
    rw [List.getD_eq_getElem s ' ' h]
    exact List.getElem_mem h
  · left
    exact List.getD_eq_default s ' ' (le_of_not_lt h)

theorem extScanGo_no_dot (s : List Char) (hs : ∀ c ∈ s, c ≠ '.') :
    ∀ (i : Nat) (st : ExtScanState), st.startDot = -1 → (extScanGo s i st).startDot = -1 := by
  intro i
  induction i with
  | zero => intro st h; exact h
  | succ i ih =>
    intro st h
    have hcne : s.getD i ' ' ≠ '.' := by
      rcases getD_default_or_mem s i with h' | h'
      · rw [h']; decide
      · exact hs _ h'
    by_cases hsl : s.getD i ' ' = '/'
    · by_cases hms : st.matchedSlash
      · have e : extScanGo s (i + 1) st = extScanGo s i st := by
          simp only [extScanGo]
          rw [if_pos hsl, if_pos hms]
        rw [e]
        exact ih st h
      · have e : extScanGo s (i + 1) st = { st with startPart := i + 1 } := by
          simp only [extScanGo]
          rw [if_pos hsl, if_neg hms]
        rw [e]
        exact h
    · by_cases hend : st.endIdx = -1
      · have e : extScanGo s (i + 1) st =
            extScanGo s i { st with matchedSlash := false, endIdx := (i : Int) + 1 } := by
          simp only [extScanGo]
          rw [if_neg hsl, if_pos hend, if_neg hcne]
          simp [h]
        rw [e]
        exact ih _ h
      · have e : extScanGo s (i + 1) st = extScanGo s i st := by
          simp only [extScanGo]
          rw [if_neg hsl, if_neg hend, if_neg hcne]
          simp [h]
        rw [e]
        exact ih st h

theorem extname_no_dot (p : String) (hp : ∀ c ∈ p.data, c ≠ '.') : extname p = "" := by
  have h : (extScanGo p.data p.length ⟨-1, 0, -1, true, 0⟩).startDot = -1 :=
    extScanGo_no_dot p.data hp p.length ⟨-1, 0, -1, true, 0⟩ rfl
  simp [extname, h]

theorem fileExt_no_dot (p : String) (hp : ∀ c ∈ p.data, c ≠ '.') : fileExt p = "" := by
  unfold fileExt
  rw [extname_no_dot p hp]
  rfl

/-- The extension as the specification's words define it (refinement
reference, §3 of the spec): the substring after the last `.`, lower-cased,
with absence of `.` meaning no extension. -/
def specExtension (filename : String) : Option String :=
  if filename.data.contains '.' then
    some (String.mk (((filename.data.map Char.toLower).reverse.takeWhile
      (fun c => c != '.')).reverse))
  else none

/-- C2 counterexample: the claim's extension rule assigns `".gitignore"`
the extension `"gitignore"`, which is not in the default allowed set, so
the claim predicts one severity-`critical` `disallowed_file_type` issue;
the code's `path.extname`-based rule treats `".gitignore"` as having no
extension and produces the severity-`high` issue instead. -/
theorem checkFileType_claim_counterexample :
    specExtension ".gitignore" = some "gitignore" ∧
    "gitignore" ∉ defaultConfig.allowedFileTypes ∧
    fileExt ".gitignore" = "" ∧
    checkFileType defaultConfig ".gitignore" = some (noExtensionIssue ".gitignore") ∧
    (noExtensionIssue ".gitignore").severity = Severity.high ∧
    Severity.high ≠ Severity.critical := by decide

/-- C2 (amended): in `checkDocument`'s type check the extension is
`path.extname(filename).toLowerCase().replace('.', '')`; this is the
lower-cased substring after the last `.` for ordinary filenames, but is
empty not only when the filename has no `.` at all — also for dotfiles
whose basename starts with the last `.` (e.g. `".gitignore"`) and for a
trailing-dot name.  A filename whose computed extension is empty yields
exactly one `disallowed_file_type` issue of severity `high` (deduction
30); a non-empty computed extension outside `allowedFileTypes` yields
exactly one severity-`critical` issue (deduction 50) whose message lists
the attempted extension and the full allowed set; a computed extension in
the allowed set (case-insensitively, via the lower-casing) yields no
`disallowed_file_type` issue. -/
theorem checkDocument_type_check (cfg : ComplianceConfig) (now : Int) (filename : String)
    (size : Int) (metadata : Option DocumentMetadata) :
    ((∀ c ∈ filename.data, c ≠ '.') → fileExt filename = "") ∧
    (fileExt filename = "" →
      (checkDocument cfg now filename size metadata).issues.filter
        (fun i => decide (i.type = IssueType.disallowed_file_type)) =
          [noExtensionIssue filename] ∧
      (noExtensionIssue filename).severity = Severity.high ∧
      typeDeduction (noExtensionIssue filename) = 30) ∧
    (fileExt filename ≠ "" → fileExt filename ∉ cfg.allowedFileTypes →
      (checkDocument cfg now filename size metadata).issues.filter
        (fun i => decide (i.type = IssueType.disallowed_file_type)) =
          [disallowedTypeIssue cfg (fileExt filename)] ∧
      (disallowedTypeIssue cfg (fileExt filename)).severity = Severity.critical ∧
      typeDeduction (disallowedTypeIssue cfg (fileExt filename)) = 50 ∧
      (disallowedTypeIssue cfg (fileExt filename)).message =
        "File type \"." ++ fileExt filename ++ "\" is not allowed. Allowed types: " ++
          String.intercalate ", " cfg.allowedFileTypes) ∧
    (fileExt filename ≠ "" → fileExt filename ∈ cfg.allowedFileTypes →
      (checkDocument cfg now filename size metadata).issues.filter
        (fun i => decide (i.type = IssueType.disallowed_file_type)) = []) := by
  refine ⟨fileExt_no_dot filename, fun h => ?_, fun h h2 => ?_, fun h h2 => ?_⟩
  · refine ⟨?_, rfl, rfl⟩
    rw [issues_filter_filetype]
    simp [checkFileType, h, String.isEmpty_iff]
  · refine ⟨?_, rfl, rfl, rfl⟩
    rw [issues_filter_filetype]
    have he : (fileExt filename).isEmpty = false := by
      cases hx : (fileExt filename).isEmpty
      · rfl
      · exact absurd ((String.isEmpty_iff _).mp hx) h
    simp [checkFileType, he, h2]
  · rw [issues_filter_filetype]
    have he : (fileExt filename).isEmpty = false := by
      cases hx : (fileExt filename).isEmpty
      · rfl
      · exact absurd ((String.isEmpty_iff _).mp hx) h
    simp [checkFileType, he, h2]

/-- C2 witness: a mixed-case allowed extension yields no issue, and an
uppercase disallowed extension yields the critical issue. -/
theorem checkDocument_type_check_witness :
    (fileExt "Report.PDF" ≠ "" ∧ fileExt "Report.PDF" ∈ defaultConfig.allowedFileTypes) ∧
    (checkDocument defaultConfig 0 "Report.PDF" 1024 none).issues.filter
      (fun i => decide (i.type = IssueType.disallowed_file_type)) = [] ∧
    (fileExt "MALWARE.EXE" ≠ "" ∧ fileExt "MALWARE.EXE" ∉ defaultConfig.allowedFileTypes) ∧
    (checkDocument defaultConfig 0 "MALWARE.EXE" 1024 none).issues.filter
      (fun i => decide (i.type = IssueType.disallowed_file_type)) =
        [disallowedTypeIssue defaultConfig "exe"] := by
  refine ⟨⟨by decide, by decide⟩, ?_, ⟨by decide, by decide⟩, ?_⟩
  · exact (checkDocument_type_check defaultConfig 0 "Report.PDF" 1024 none).2.2.2
      (by decide) (by decide)
  · have h := ((checkDocument_type_check defaultConfig 0 "MALWARE.EXE" 1024 none).2.2.1
      (by decide) (by decide)).1
    rw [h]
    decide

end DocGov

namespace DocGov

/-! ### Periodic bulk re-evaluation (`runPeriodicCheck`)

The collaborator stores are modelled as in-memory tables: document rows,
compliance-issue rows (with the `status` column whose DB default is
`'open'`), and the version store (a `COUNT(*)` per document id, 0 when no
rows exist).  Store-generated issue ids and timestamps are omitted; the
`ORDER BY` of `findByDocumentId` is irrelevant because the loop only
builds the *set* of open issue types from it. -/

/-- A `compliance_issues` row as the periodic check reads and writes it. -/
structure StoredIssue where
  documentId : String
  type : IssueType
  severity : Severity
  message : String
  details : List (String × String)
  status : String
deriving DecidableEq

/-- A `documents` row as `runPeriodicCheck` reads it. -/
structure DocRecord where
  id : String
  originalFilename : String
  size : Int
  metadata : Option DocumentMetadata
  secureLinkExpiry : Option Int
  status : String
  complianceScore : Int
deriving DecidableEq

/-- The persistent state `runPeriodicCheck` reads and writes. -/
structure Store where
  documents : List DocRecord
  issues : List StoredIssue
  versionCounts : List (String × Nat)
deriving DecidableEq

/-- `versionRepository.getVersionCount(documentId)`:
`SELECT COUNT(*) … WHERE document_id = ?`, 0 when the id has no rows. -/
def getVersionCount (vc : List (String × Nat)) (documentId : String) : Nat :=
  ((vc.find? fun p => decide (p.1 = documentId)).map Prod.snd).getD 0

/-- The open issue types of one document:
`findByDocumentId(id)` filtered to `status === 'open'`, mapped to `type`
(the loop builds a `Set` of these). -/
def openTypesOf (issues : List StoredIssue) (documentId : String) : List IssueType :=
  (issues.filter fun i => decide (i.documentId = documentId ∧ i.status = "open")).map
    StoredIssue.type

/-- `complianceIssueRepository.create` for one engine issue: inserted with
the DB default status `'open'`. -/
def mkStoredIssue (documentId : String) (i : Issue) : StoredIssue :=
  { documentId := documentId, type := i.type, severity := i.severity
  , message := i.message, details := i.details, status := "open" }

/-- The net-new issues of one loop iteration: `checkDocument`'s issues
with the link-expiry issue (when `secure_link_expiry` is set) and the
version-count issue pushed on, filtered to the types not already open for
this document. -/
def newIssuesOf (cfg : ComplianceConfig) (now : Int) (st : Store) (d : DocRecord) :
    List Issue :=
  ((checkDocument cfg now d.originalFilename d.size d.metadata).issues ++
    (match d.secureLinkExpiry with
      | some e => (checkLinkExpiry now (some e)).toList
      | none => []) ++
    (checkVersionCount (getVersionCount st.versionCounts d.id) 50).toList).filter
      fun i => decide (i.type ∉ openTypesOf st.issues d.id)

/-- One iteration of `runPeriodicCheck`'s loop: re-run `checkDocument`,
push the link-expiry and version-count issues onto `result.issues`
(mutating the list but not `result.score`), create the net-new issues, and
overwrite the document's `complianceScore` with `result.score`.  Returns
the updated store and the number of issues created. -/
def processDoc (cfg : ComplianceConfig) (now : Int) (st : Store) (d : DocRecord) :
    Store × Nat :=
  let result := checkDocument cfg now d.originalFilename d.size d.metadata
  let newIssues := newIssuesOf cfg now st d
  ({ documents := st.documents.map (fun doc =>
        if doc.id = d.id then { doc with complianceScore := result.score } else doc),
     issues := st.issues ++ newIssues.map (mkStoredIssue d.id),
     versionCounts := st.versionCounts },
   newIssues.length)

/-- The fold step of `runPeriodicCheck`, accumulating `issuesFound`. -/
def runStep (cfg : ComplianceConfig) (now : Int) (acc : Store × Nat) (d : DocRecord) :
    Store × Nat :=
  let r := processDoc cfg now acc.1 d
  (r.1, acc.2 + r.2)

/-- `runPeriodicCheck`: reads the `'synced'` document rows once, folds the
loop body over them, and returns the final store with
`{ checked, issuesFound }`. -/
def runPeriodicCheck (cfg : ComplianceConfig) (now : Int) (st : Store) :
    Store × Nat × Nat :=
  let docs := st.documents.filter fun d => decide (d.status = "synced")
  let p := docs.foldl (runStep cfg now) (st, 0)
  (p.1, docs.length, p.2)

theorem processDoc_documents (cfg : ComplianceConfig) (now : Int) (st : Store) (d : DocRecord) :
    (processDoc cfg now st d).1.documents = st.documents.map fun doc =>
      if doc.id = d.id then
        { doc with complianceScore :=
            (checkDocument cfg now d.originalFilename d.size d.metadata).score }
      else doc := rfl

theorem processDoc_issues (cfg : ComplianceConfig) (now : Int) (st : Store) (d : DocRecord) :
    (processDoc cfg now st d).1.issues =
      st.issues ++ (newIssuesOf cfg now st d).map (mkStoredIssue d.id) := rfl

theorem mkStored_newIssues_spec (cfg : ComplianceConfig) (now : Int) (st : Store)
    (d : DocRecord) :
    ∀ j ∈ (newIssuesOf cfg now st d).map (mkStoredIssue d.id),
      j.documentId = d.id ∧ j.status = "open" ∧ j.type ∉ openTypesOf st.issues d.id := by
  intro j hj
  obtain ⟨i, hi, rfl⟩ := List.mem_map.mp hj
  refine ⟨rfl, rfl, ?_⟩
  have h := (List.mem_filter.mp hi).2
  simpa [mkStoredIssue] using h

theorem openTypesOf_append_other (issues B : List StoredIssue) (x : String)
    (hB : ∀ j ∈ B, j.documentId ≠ x) :
    openTypesOf (issues ++ B) x = openTypesOf issues x := by
  unfold openTypesOf
  rw [List.filter_append]
  have hB0 : B.filter (fun i => decide (i.documentId = x ∧ i.status = "open")) = [] :=
    List.filter_eq_nil_iff.mpr (fun j hj => by simp [hB j hj])
  rw [hB0, List.append_nil]

end DocGov

namespace DocGov

/-- Score invariant: every document row with the given id carries the
given compliance score. -/
def scoreIs (docs : List DocRecord) (x : String) (v : Int) : Prop :=
  ∀ d' ∈ docs, d'.id = x → d'.complianceScore = v

theorem processDoc_setScore (cfg : ComplianceConfig) (now : Int) (st : Store) (d : DocRecord) :
    scoreIs (processDoc cfg now st d).1.documents d.id
      (checkDocument cfg now d.originalFilename d.size d.metadata).score := by
  intro d' hd' hid
  rw [processDoc_documents] at hd'
  obtain ⟨doc, hdoc, rfl⟩ := List.mem_map.mp hd'
  by_cases hc : doc.id = d.id
  · rw [if_pos hc]
  · rw [if_neg hc] at hid
    exact absurd hid hc

theorem processDoc_keepScore (cfg : ComplianceConfig) (now : Int) (st : Store) (e : DocRecord)
    (x : String) (v : Int) (hx : e.id ≠ x) (h : scoreIs st.documents x v) :
    scoreIs (processDoc cfg now st e).1.documents x v := by
  intro d' hd' hid
  rw [processDoc_documents] at hd'
  obtain ⟨doc, hdoc, rfl⟩ := List.mem_map.mp hd'
  by_cases hc : doc.id = e.id
  · rw [if_pos hc] at hid ⊢
    exact absurd (hc.symm.trans hid) hx
  · rw [if_neg hc] at hid ⊢
    exact h doc hdoc hid

theorem foldl_keepScore (cfg : ComplianceConfig) (now : Int) (todo : List DocRecord)
    (acc : Store × Nat) (x : String) (v : Int) (hx : ∀ e ∈ todo, e.id ≠ x)
    (h : scoreIs acc.1.documents x v) :
    scoreIs (todo.foldl (runStep cfg now) acc).1.documents x v := by
  induction todo generalizing acc with
  | nil => exact h
  | cons e rest ih =>
    simp only [List.foldl_cons]
    exact ih _ (fun e' he' => hx e' (List.mem_cons_of_mem e he'))
      (processDoc_keepScore cfg now acc.1 e x v (hx e (List.mem_cons_self e rest)) h)

theorem foldl_scores (cfg : ComplianceConfig) (now : Int) (todo : List DocRecord)
    (acc : Store × Nat) (hnd : (todo.map DocRecord.id).Nodup) :
    ∀ d ∈ todo, scoreIs (todo.foldl (runStep cfg now) acc).1.documents d.id
      (checkDocument cfg now d.originalFilename d.size d.metadata).score := by
  induction todo generalizing acc with
  | nil => intro d hd; cases hd
  | cons e rest ih =>
    simp only [List.map_cons, List.nodup_cons] at hnd
    intro d hd
    simp only [List.foldl_cons]
    rcases List.mem_cons.mp hd with rfl | hd'
    · refine foldl_keepScore cfg now rest _ d.id _ (fun e' he' heq => ?_)
        (processDoc_setScore cfg now acc.1 d)
      exact hnd.1 (heq ▸ List.mem_map_of_mem DocRecord.id he')
    · exact ih _ hnd.2 d hd'

/-- Issue-store invariant through the fold: everything past the original
rows is an open row for an already-processed document whose type was not
open for that document originally. -/
theorem foldl_issues (cfg : ComplianceConfig) (now : Int) (base : List StoredIssue)
    (todo : List DocRecord) (acc : Store × Nat)
    (hnd : (todo.map DocRecord.id).Nodup)
    (hB : ∃ B, acc.1.issues = base ++ B ∧ ∀ j ∈ B, j.status = "open" ∧
      (∀ e ∈ todo, j.documentId ≠ e.id) ∧ j.type ∉ openTypesOf base j.documentId) :
    ∃ B, (todo.foldl (runStep cfg now) acc).1.issues = base ++ B ∧
      ∀ j ∈ B, j.status = "open" ∧ j.type ∉ openTypesOf base j.documentId := by
  induction todo generalizing acc with
  | nil =>
    obtain ⟨B, h1, h2⟩ := hB
    exact ⟨B, h1, fun j hj => ⟨(h2 j hj).1, (h2 j hj).2.2⟩⟩
  | cons e rest ih =>
    simp only [List.map_cons, List.nodup_cons] at hnd
    obtain ⟨B, h1, h2⟩ := hB
    simp only [List.foldl_cons]
    have hBnotE : ∀ j ∈ B, j.documentId ≠ e.id :=
      fun j hj => (h2 j hj).2.1 e (List.mem_cons_self e rest)
    have hopen : openTypesOf acc.1.issues e.id = openTypesOf base e.id := by
      rw [h1, openTypesOf_append_other base B e.id hBnotE]
    refine ih _ hnd.2 ?_
    refine ⟨B ++ (newIssuesOf cfg now acc.1 e).map (mkStoredIssue e.id), ?_, ?_⟩
    · show (processDoc cfg now acc.1 e).1.issues = base ++ _
      rw [processDoc_issues, h1, List.append_assoc]
    · intro j hj
      rcases List.mem_append.mp hj with hj | hj
      · obtain ⟨hst, hids, hty⟩ := h2 j hj
        exact ⟨hst, fun e' he' => hids e' (List.mem_cons_of_mem e he'), hty⟩
      · obtain ⟨hid, hst, hty⟩ := mkStored_newIssues_spec cfg now acc.1 e j hj
        rw [hopen] at hty
        refine ⟨hst, fun e' he' heq => ?_, hid ▸ hty⟩
        exact hnd.1 ((hid.symm.trans heq) ▸ List.mem_map_of_mem DocRecord.id he')

end DocGov

namespace DocGov

/-- C9: in the periodic bulk re-evaluation (distinct document ids, as the
primary key guarantees), every created issue row has a type that was not
among that document's open issue rows, and the compliance score written
back for each synced document equals the score `checkDocument` alone
computed — pushing the link-expiry and version-count issues onto the
result's issue list never changes the persisted score. -/
theorem runPeriodicCheck_frame (cfg : ComplianceConfig) (now : Int) (st : Store)
    (hnd : (st.documents.map DocRecord.id).Nodup) :
    (∀ d ∈ st.documents, d.status = "synced" →
      ∀ d' ∈ (runPeriodicCheck cfg now st).1.documents, d'.id = d.id →
        d'.complianceScore =
          (checkDocument cfg now d.originalFilename d.size d.metadata).score) ∧
    (∃ created, (runPeriodicCheck cfg now st).1.issues = st.issues ++ created ∧
      ∀ j ∈ created, j.status = "open" ∧
        j.type ∉ openTypesOf st.issues j.documentId) := by
  have hndf : ((st.documents.filter fun x => decide (x.status = "synced")).map
      DocRecord.id).Nodup :=
    hnd.sublist (List.Sublist.map DocRecord.id (List.filter_sublist st.documents))
  constructor
  · intro d hd hsync d' hd' hid
    have hdf : d ∈ st.documents.filter fun x => decide (x.status = "synced") :=
      List.mem_filter.mpr ⟨hd, by simp [hsync]⟩
    exact foldl_scores cfg now _ (st, 0) hndf d hdf d' hd' hid
  · exact foldl_issues cfg now st.issues _ (st, 0) hndf ⟨[], by simp, by simp⟩

/-- A small concrete store for exercising the periodic check. -/
def demoMetadata : DocumentMetadata :=
  { category := some "contracts", confidentiality := some "internal" }

/-- A synced document row in the demo store. -/
def demoDoc : DocRecord :=
  { id := "doc1", originalFilename := "report.pdf", size := 1024
  , metadata := some demoMetadata, secureLinkExpiry := none
  , status := "synced", complianceScore := 55 }

/-- The demo store: one synced document, no issues, no versions. -/
def demoStore : Store :=
  { documents := [demoDoc], issues := [], versionCounts := [] }

/-- C9 witness: on the demo store the persisted score of `doc1` equals the
freshly computed `checkDocument` score. -/
theorem runPeriodicCheck_frame_witness :
    (demoStore.documents.map DocRecord.id).Nodup ∧
    demoDoc ∈ demoStore.documents ∧
    (∀ d' ∈ (runPeriodicCheck defaultConfig 0 demoStore).1.documents, d'.id = "doc1" →
      d'.complianceScore =
        (checkDocument defaultConfig 0 "report.pdf" 1024 (some demoMetadata)).score) :=
  ⟨by decide, by decide, fun d' h1 h2 =>
    (runPeriodicCheck_frame defaultConfig 0 demoStore (by decide)).1 demoDoc
      (by decide) rfl d' h1 h2⟩

end DocGov
